import Mathlib

/-!
# Temporal Signal Aggregation — verification development

Shallow embedding of `src/lib/temporal/aggregate.ts` (types from
`src/lib/temporal/types.ts`).  Instants are modelled as integer
milliseconds since the epoch (JS `Date.getTime()`); ISO strings in the
source are parsed to such instants before any arithmetic, so the
embedding carries the instants directly.
-/

namespace Temporal

/-- `ImpactLevel` from types.ts: `"low" | "medium" | "high"`. -/
inductive ImpactLevel where
  | low
  | medium
  | high
deriving DecidableEq, Repr

/-- `ConfidenceLevel` from types.ts: `"low" | "medium" | "high"`. -/
inductive ConfidenceLevel where
  | low
  | medium
  | high
deriving DecidableEq, Repr

/-- `WindowType` from aggregate.ts: `"safer" | "caution" | "highDisruption"`. -/
inductive WindowType where
  | safer
  | caution
  | highDisruption
deriving DecidableEq, Repr

/-- The fields of `TemporalSignal` (types.ts) that the aggregation module
reads: `id`, `description`, `timeRange` (start/end instants, in ms),
`impactLevel`, `confidenceLevel`.  The remaining fields (`signalType`,
`source`, `interpretationNotes`, `dataLatencyHours`, `isSimulated`,
`geographyHint`) are never consulted by aggregate.ts and are omitted. -/
structure TemporalSignal where
  id : String
  description : String
  startTime : Int
  endTime : Int
  impactLevel : ImpactLevel
  confidenceLevel : ConfidenceLevel
deriving DecidableEq, Repr

/-- `OutreachWindow` from aggregate.ts; `timeRange.start`/`timeRange.end`
are flattened into `startTime`/`endTime` (ms instants). -/
structure OutreachWindow where
  id : String
  windowType : WindowType
  startTime : Int
  endTime : Int
  driverSignalIds : List String
  plainLanguageWhy : String
  confidenceSummary : ConfidenceLevel
  suggestedApproach : String
  impactScore : Nat
deriving DecidableEq, Repr

/-- `SignalOverlap` from aggregate.ts, with the time range flattened. -/
structure SignalOverlap where
  id : String
  startTime : Int
  endTime : Int
  signalIds : List String
  whyItMatters : String
  combinedImpact : ImpactLevel
deriving DecidableEq, Repr

/-- `IMPACT_WEIGHTS`: low = 1, medium = 2, high = 3. -/
def IMPACT_WEIGHTS : ImpactLevel → Nat
  | .low => 1
  | .medium => 2
  | .high => 3

/-- `WINDOW_THRESHOLDS.safer = 1`. -/
def WINDOW_THRESHOLDS_safer : Nat := 1

/-- `WINDOW_THRESHOLDS.caution = 2`. -/
def WINDOW_THRESHOLDS_caution : Nat := 2

/-- JS string key of a `WindowType` value (its literal string form). -/
def windowTypeKey : WindowType → String
  | .safer => "safer"
  | .caution => "caution"
  | .highDisruption => "highDisruption"

/-- The `IMPACT_WEIGHTS` record viewed as a JS object lookup by string
key: the keys are `"low"`, `"medium"`, `"high"`; any other key yields
`undefined`, modelled as `none`. -/
def IMPACT_WEIGHTS_record : String → Option Nat
  | "low" => some 1
  | "medium" => some 2
  | "high" => some 3
  | _ => none

/-- JS `>` on two possibly-`undefined` numbers: if either operand is
`undefined` the comparison is `false` (NaN semantics); otherwise the
numeric comparison. -/
def jsGt : Option Nat → Option Nat → Bool
  | some a, some b => b < a
  | _, _ => false

/-- `aggregateConfidence` (aggregate.ts lines 133-142): lowest confidence
wins; the empty list yields `"low"`. -/
def aggregateConfidence (signals : List TemporalSignal) : ConfidenceLevel :=
  if signals.length = 0 then .low
  else
    let hasLow := signals.any (fun s => s.confidenceLevel = ConfidenceLevel.low)
    let hasMedium := signals.any (fun s => s.confidenceLevel = ConfidenceLevel.medium)
    if hasLow then .low
    else if hasMedium then .medium
    else .high

/-- The fixed neutral explanation used when a window has no driver
signals. -/
def neutralExplanation : String :=
  "No significant signals affecting this time period. Standard outreach conditions expected."

/-- `generateWindowExplanation` (aggregate.ts lines 147-178).
`String.toLower` models JS `toLowerCase` (the repository's descriptions
are ASCII). -/
def generateWindowExplanation (windowType : WindowType)
    (driverSignals : List TemporalSignal) : String :=
  if driverSignals.length = 0 then neutralExplanation
  else
    let signalDescriptions :=
      ((driverSignals.map (fun s => s.description.toLower)).take 3)
    let joined := String.intercalate "; " signalDescriptions
    match windowType with
    | .safer =>
        "Low-impact signals (" ++ joined ++
          "). Generally good conditions for outreach with minor considerations."
    | .caution =>
        "Moderate activity expected: " ++ joined ++
          ". Outreach is feasible but may require adjusted timing or approach."
    | .highDisruption =>
        "Multiple or high-impact signals: " ++ joined ++
          ". Consider alternative timing or proactive coordination before this period."

/-- `generateSuggestedApproach` (aggregate.ts lines 183-197). -/
def generateSuggestedApproach (windowType : WindowType) : String :=
  match windowType with
  | .safer =>
      "Standard outreach approach. Good time for relationship-building, needs assessment, and service connections."
  | .caution =>
      "Consider morning or late afternoon timing. Coordinate with partner organizations. Have alternative locations ready for conversations."
  | .highDisruption =>
      "Focus on proactive outreach 24-48 hours before this period. Share information about what's coming. Connect people with services they may need."

/-! ## Bucket scorer -/

/-- One hour in milliseconds (`bucketDurationMs` in the source). -/
def bucketDurationMs : Int := 3600000

/-- One day in milliseconds (`24 * 60 * 60 * 1000`). -/
def dayMs : Int := 86400000

/-- The active-signal test of the bucket loop:
`signalStart < bucketEnd && signalEnd > bucketStart`. -/
def signalActive (bucketStart bucketEnd : Int) (s : TemporalSignal) : Bool :=
  decide (s.startTime < bucketEnd) && decide (s.endTime > bucketStart)

/-- The score accumulation of the bucket loop:
`activeSignals.reduce((sum, signal) => sum + IMPACT_WEIGHTS[signal.impactLevel], 0)`. -/
def sumWeights (signals : List TemporalSignal) : Nat :=
  signals.foldl (fun sum s => sum + IMPACT_WEIGHTS s.impactLevel) 0

/-- An hourly bucket (the ephemeral `Bucket` interface inside
`computeOutreachWindows`). -/
structure Bucket where
  start : Int
  stop : Int
  score : Nat
  signals : List TemporalSignal
deriving DecidableEq, Repr

/-- Build the bucket starting at `time` (one loop iteration of the
bucket loop, aggregate.ts lines 287-314). -/
def mkBucket (signals : List TemporalSignal) (time : Int) : Bucket :=
  let bucketStart := time
  let bucketEnd := time + bucketDurationMs
  let activeSignals := signals.filter (signalActive bucketStart bucketEnd)
  { start := bucketStart
    stop := bucketEnd
    score := sumWeights activeSignals
    signals := activeSignals }

/-- The bucket loop: `for (let time = now; time < end; time += 1h)`. -/
def mkBuckets (signals : List TemporalSignal) (time endTime : Int) : List Bucket :=
  if h : time < endTime then
    mkBucket signals time :: mkBuckets signals (time + bucketDurationMs) endTime
  else []
termination_by (endTime - time).toNat
decreasing_by
  simp only [bucketDurationMs]
  omega

/-! ## Window merger -/

/-- `getWindowType` (aggregate.ts lines 317-321). -/
def getWindowType (score : Nat) : WindowType :=
  if score ≤ WINDOW_THRESHOLDS_safer then .safer
  else if score ≤ WINDOW_THRESHOLDS_caution then .caution
  else .highDisruption

/-- One `Set.add` on a JS `Set` of signal objects: insertion-order
preserving, ignoring elements already present. -/
def addSignal (l : List TemporalSignal) (s : TemporalSignal) : List TemporalSignal :=
  if s ∈ l then l else l ++ [s]

/-- `new Set(bucket.signals)`: insertion-order dedup. -/
def dedupSignals (l : List TemporalSignal) : List TemporalSignal :=
  l.foldl addSignal []

/-- One `Set.add` on a JS `Set` of strings. -/
def addString (l : List String) (s : String) : List String :=
  if s ∈ l then l else l ++ [s]

/-- `[...new Set(strings)]`: insertion-order dedup. -/
def dedupStrings (l : List String) : List String :=
  l.foldl addString []

/-- The accumulating window of the bucket-merge loop (`currentWindow`
in aggregate.ts); its JS `Set` of signals is modelled as an
insertion-ordered duplicate-free list. -/
structure CurrentWindow where
  type : WindowType
  startBucket : Bucket
  endBucket : Bucket
  signals : List TemporalSignal
  maxScore : Nat
deriving DecidableEq, Repr

/-- Start a new accumulating window at bucket `b` (aggregate.ts
lines 336-344 and 373-379). -/
def freshWindow (t : WindowType) (b : Bucket) : CurrentWindow :=
  { type := t
    startBucket := b
    endBucket := b
    signals := dedupSignals b.signals
    maxScore := b.score }

/-- Extend the accumulating window with bucket `b` (aggregate.ts
lines 345-349). -/
def extendWindow (cw : CurrentWindow) (b : Bucket) : CurrentWindow :=
  { cw with
    endBucket := b
    signals := b.signals.foldl addSignal cw.signals
    maxScore := max cw.maxScore b.score }

/-- Close the accumulating window into an `OutreachWindow`
(aggregate.ts lines 352-371 / 384-405); `idx` is the length of the
windows list so far, so the id is `window-(idx+1)`. -/
def materializeWindow (idx : Nat) (cw : CurrentWindow) : OutreachWindow :=
  let driverSignals := cw.signals
  { id := "window-" ++ toString (idx + 1)
    windowType := cw.type
    startTime := cw.startBucket.start
    endTime := cw.endBucket.stop
    driverSignalIds := driverSignals.map (fun s => s.id)
    plainLanguageWhy := generateWindowExplanation cw.type driverSignals
    confidenceSummary := aggregateConfidence driverSignals
    suggestedApproach := generateSuggestedApproach cw.type
    impactScore := cw.maxScore }

/-- The bucket-merge loop after the first bucket has initialized
`currentWindow` (aggregate.ts lines 333-405, including the final
close). -/
def mergeLoop (acc : List OutreachWindow) (cw : CurrentWindow) :
    List Bucket → List OutreachWindow
  | [] => acc ++ [materializeWindow acc.length cw]
  | b :: bs =>
    let bucketType := getWindowType b.score
    if cw.type = bucketType then
      mergeLoop acc (extendWindow cw b) bs
    else
      mergeLoop (acc ++ [materializeWindow acc.length cw])
        (freshWindow bucketType b) bs

/-- Merge contiguous same-type buckets into windows: `currentWindow` is
`null` only until the first bucket is seen, so the loop splits into an
empty case and `mergeLoop` seeded from the first bucket. -/
def mergeBuckets : List Bucket → List OutreachWindow
  | [] => []
  | b :: bs => mergeLoop [] (freshWindow (getWindowType b.score) b) bs

/-! ## Fragmentation cleanup -/

/-- Two hours in milliseconds: `durationHours < 2` on an integer
millisecond duration is exactly `durationMs < 7200000`. -/
def twoHoursMs : Int := 7200000

/-- The escalation test of the cleanup loop:
`IMPACT_WEIGHTS[window.windowType as ImpactLevel] > IMPACT_WEIGHTS[prev.windowType as ImpactLevel]`.
Both lookups index the impact-level-keyed record with a window-type
string, so both yield `undefined` (`none`). -/
def escalates (w prev : OutreachWindow) : Bool :=
  jsGt (IMPACT_WEIGHTS_record (windowTypeKey w.windowType))
    (IMPACT_WEIGHTS_record (windowTypeKey prev.windowType))

/-- Absorb the short window `w` into the preceding window `prev`
(aggregate.ts lines 417-431): extend `prev`'s end, adopt `w`'s
type/explanation/approach when `escalates`, and union the driver id
sets with insertion-order dedup. -/
def mergeIntoPrev (prev w : OutreachWindow) : OutreachWindow :=
  let prev1 : OutreachWindow := { prev with endTime := w.endTime }
  let prev2 : OutreachWindow :=
    if escalates w prev1 then
      { prev1 with
        windowType := w.windowType
        plainLanguageWhy := w.plainLanguageWhy
        suggestedApproach := w.suggestedApproach }
    else prev1
  { prev2 with
    driverSignalIds := dedupStrings (prev2.driverSignalIds ++ w.driverSignalIds) }

/-- One iteration of the cleanup loop (aggregate.ts lines 410-435):
a window shorter than 2 hours is absorbed into the last window pushed
so far, unless there is none. -/
def cleanupStep (acc : List OutreachWindow) (w : OutreachWindow) :
    List OutreachWindow :=
  if w.endTime - w.startTime < twoHoursMs then
    match acc.getLast? with
    | some prev => acc.dropLast ++ [mergeIntoPrev prev w]
    | none => acc ++ [w]
  else acc ++ [w]

/-- The fragmentation-cleanup pass (`mergedWindows`). -/
def cleanupWindows (windows : List OutreachWindow) : List OutreachWindow :=
  windows.foldl cleanupStep []

/-- `computeOutreachWindows` (aggregate.ts lines 269-438).  The source
computes `now = new Date()` once per call; the embedding takes that
single instant as the explicit argument `now`. -/
def computeOutreachWindows (signals : List TemporalSignal)
    (horizonDays : Int) (now : Int) : List OutreachWindow :=
  let endTime := now + horizonDays * dayMs
  cleanupWindows (mergeBuckets (mkBuckets signals now endTime))

/-- A wall clock, as the stream of instants returned by successive
`new Date()` calls.  `computeOutreachWindows` performs exactly one such
call, at its start. -/
def computeOutreachWindowsClocked (clock : Nat → Int)
    (signals : List TemporalSignal) (horizonDays : Int) : List OutreachWindow :=
  computeOutreachWindows signals horizonDays (clock 0)

/-! ## Scenario transformer -/

/-- The two scenario tags accepted by `applyScenarioMode`. -/
inductive ScenarioType where
  | olympics
  | majorEvent
deriving DecidableEq, Repr

/-! The safer-branch arithmetic of `applyScenarioMode` runs in IEEE-754
double precision: `duration * compressionFactor` is a double
multiplication and `new Date(start + newDuration)` a double addition
followed by `Date`'s truncation toward zero.  A finite double is a
dyadic rational; it is modelled exactly as a significand/exponent pair
`(s, e) : Int × Int` of value `s · 2^e`, and each operation as the
exact integer result rounded to 53 significant bits with ties to even
(the IEEE rounding).  The literals `0.7` and `0.8` themselves denote
the nearest doubles: `0.7`'s double lies strictly below 7/10, which is
why the compressed end can land one millisecond under the exact
product. -/

/-- `⌊log₂ n⌋` for `0 < n < 2^128` (every magnitude arising here; the
products involved stay far below 2^128). -/
def natLog2 (n : Nat) : Nat :=
  ((List.range 128).filter (fun k => 2 ^ k ≤ n)).length - 1

/-- Round the exact positive value `n · 2^e` to at most 53 significant
bits, ties to even — the IEEE-754 double rounding (exponents are
unbounded: no overflow or subnormals occur in this domain). -/
def roundPos (n : Nat) (e : Int) : Int × Int :=
  let L := natLog2 n
  if L ≤ 52 then ((n : Int), e)
  else
    let k := L - 52
    let q := n / 2 ^ k
    let r := n % 2 ^ k
    let half := 2 ^ (k - 1)
    let q2 := if half < r then q + 1
      else if r < half then q
      else if q % 2 = 0 then q else q + 1
    ((q2 : Int), e + (k : Int))

/-- Round the exact value `n · 2^e` to the nearest double (rounding is
sign-symmetric). -/
def fpRound (n : Int) (e : Int) : Int × Int :=
  if n = 0 then (0, 0)
  else if 0 < n then roundPos n.toNat e
  else
    let p := roundPos (-n).toNat e
    (-p.1, p.2)

/-- IEEE addition of an exactly-representable integer and a double:
the exact sum, rounded. -/
def fpAddInt (a : Int) (p : Int × Int) : Int × Int :=
  if 0 ≤ p.2 then fpRound (a + p.1 * 2 ^ p.2.toNat) 0
  else fpRound (a * 2 ^ (-p.2).toNat + p.1) p.2

/-- JS `Date` truncation (toward zero, `ToIntegerOrInfinity`) of the
double `p.1 · 2^p.2`. -/
def fpTrunc (p : Int × Int) : Int :=
  if 0 ≤ p.2 then p.1 * 2 ^ p.2.toNat
  else if 0 ≤ p.1 then ((p.1.toNat / 2 ^ (-p.2).toNat : Nat) : Int)
  else -((((-p.1).toNat / 2 ^ (-p.2).toNat : Nat)) : Int)

/-- The significand of the source's `compressionFactor` as a double:
the value of the literal `0.7` is `6305039478318694 / 2^53` (strictly
below 7/10) and of `0.8` is `7205759403792794 / 2^53` (strictly above
4/5). -/
def compressionFactorSig : ScenarioType → Int
  | .olympics => 6305039478318694
  | .majorEvent => 7205759403792794

/-- The safer-branch end instant of `applyScenarioMode` (aggregate.ts
lines 458-462) in exact double arithmetic:
`duration = end - start` (exact, both instants being integers in the
double-exact range), `newDuration = fl(duration × factor)`,
`newEnd = trunc(fl(start + newDuration))`. -/
def compressEnd (scenarioType : ScenarioType) (startTime endTime : Int) : Int :=
  let duration := endTime - startTime
  let newDuration :=
    fpRound (duration * compressionFactorSig scenarioType) (-53)
  fpTrunc (fpAddInt startTime newDuration)

/-- The per-window callback of `applyScenarioMode`'s `windows.map`
(aggregate.ts lines 455-490). -/
def applyScenarioWindow (scenarioType : ScenarioType)
    (w : OutreachWindow) : OutreachWindow :=
  match w.windowType with
    | .safer =>
      let newEnd := compressEnd scenarioType w.startTime w.endTime
      { w with
        id := "scenario-" ++ w.id
        endTime := newEnd
        plainLanguageWhy := "SPECULATIVE: " ++ w.plainLanguageWhy ++
          " During major events, available windows compress due to increased institutional activity."
        suggestedApproach := "SPECULATIVE: " ++ w.suggestedApproach ++
          " Consider pre-event outreach to maximize available time." }
    | .caution =>
      { w with
        id := "scenario-" ++ w.id
        windowType := .highDisruption
        plainLanguageWhy := "SPECULATIVE: " ++ w.plainLanguageWhy ++
          " Major events typically increase impact of existing signals."
        suggestedApproach :=
          "SPECULATIVE: Focus resources on pre-event and post-event windows rather than during." }
    | .highDisruption =>
      { w with
        id := "scenario-" ++ w.id
        plainLanguageWhy := "SPECULATIVE: " ++ w.plainLanguageWhy }

/-- `applyScenarioMode` (aggregate.ts lines 446-491). -/
def applyScenarioMode (windows : List OutreachWindow)
    (scenarioType : ScenarioType) : List OutreachWindow :=
  windows.map (applyScenarioWindow scenarioType)

/-! ## Overlap detector -/

/-- The filter preceding the pair scan: impact level medium or high. -/
def isImpactful (s : TemporalSignal) : Bool :=
  decide (s.impactLevel = ImpactLevel.medium) ||
    decide (s.impactLevel = ImpactLevel.high)

/-- The pairwise overlap test: `aStart < bEnd && aEnd > bStart`. -/
def overlapTest (a b : TemporalSignal) : Bool :=
  decide (a.startTime < b.endTime) && decide (a.endTime > b.startTime)

/-- Lexicographic comparison of two char lists (JS's default string
comparison, code unit by code unit). -/
def charListLt : List Char → List Char → Bool
  | [], [] => false
  | [], _ :: _ => true
  | _ :: _, [] => false
  | c :: cs, d :: ds =>
    if c < d then true
    else if d < c then false
    else charListLt cs ds

/-- JS `a < b` on strings. -/
def strLt (a b : String) : Bool :=
  charListLt a.data b.data

/-- `[a.id, b.id].sort().join("-")`: the order-independent pair key
(JS default sort compares the two id strings lexicographically). -/
def pairKey (a b : String) : String :=
  if strLt b a then b ++ "-" ++ a else a ++ "-" ++ b

/-- Combined impact from the sum of the two weights:
`>= 5 → high, >= 3 → medium, else low`. -/
def combinedImpactOf (a b : TemporalSignal) : ImpactLevel :=
  let combinedScore := IMPACT_WEIGHTS a.impactLevel + IMPACT_WEIGHTS b.impactLevel
  if combinedScore ≥ 5 then .high
  else if combinedScore ≥ 3 then .medium
  else .low

/-- The overlap record pushed for a qualifying pair (aggregate.ts
lines 228-248). -/
def mkOverlap (a b : TemporalSignal) : SignalOverlap :=
  { id := "overlap-" ++ a.id ++ "-" ++ b.id
    startTime := max a.startTime b.startTime
    endTime := min a.endTime b.endTime
    signalIds := [a.id, b.id]
    whyItMatters := "Two significant signals overlap: \"" ++ a.description ++
      "\" and \"" ++ b.description ++
      "\". When multiple disruptive factors coincide, the combined effect on outreach effectiveness is greater than each alone. Consider proactive coordination."
    combinedImpact := combinedImpactOf a b }

/-- The inner loop of the pair scan (index `j` over the signals after
`a`), threading the `processedPairs` set. -/
def innerLoop (a : TemporalSignal) :
    List TemporalSignal → List String → (List SignalOverlap × List String)
  | [], processed => ([], processed)
  | b :: bs, processed =>
    if overlapTest a b then
      let k := pairKey a.id b.id
      if k ∈ processed then innerLoop a bs processed
      else
        let rest := innerLoop a bs (processed ++ [k])
        (mkOverlap a b :: rest.1, rest.2)
    else innerLoop a bs processed

/-- The outer loop of the pair scan (index `i`). -/
def outerLoop : List TemporalSignal → List String → List SignalOverlap
  | [], _ => []
  | a :: rest, processed =>
    let r := innerLoop a rest processed
    r.1 ++ outerLoop rest r.2

/-- Stable insertion of an overlap into a list sorted by start time;
`foldl` over it is the stable sort the source's
`sort((a, b) => aStart - bStart)` performs. -/
def insertByStart (o : SignalOverlap) : List SignalOverlap → List SignalOverlap
  | [] => [o]
  | x :: xs =>
    if x.startTime ≤ o.startTime then x :: insertByStart o xs
    else o :: x :: xs

/-- The final stable sort by intersection start time. -/
def sortByStart (l : List SignalOverlap) : List SignalOverlap :=
  l.foldl (fun acc o => insertByStart o acc) []

/-- `findSignalOverlaps` (aggregate.ts lines 202-258). -/
def findSignalOverlaps (signals : List TemporalSignal) : List SignalOverlap :=
  let impactfulSignals := signals.filter isImpactful
  sortByStart (outerLoop impactfulSignals [])

/-! ## Bucket-scorer lemmas -/

theorem mkBuckets_of_lt (signals : List TemporalSignal) (t e : Int) (h : t < e) :
    mkBuckets signals t e =
      mkBucket signals t :: mkBuckets signals (t + bucketDurationMs) e := by
  rw [mkBuckets, dif_pos h]

theorem mkBuckets_of_ge (signals : List TemporalSignal) (t e : Int) (h : ¬ t < e) :
    mkBuckets signals t e = [] := by
  rw [mkBuckets, dif_neg h]

/-- Closed form of the bucket loop when the horizon is an exact number
of hours. -/
theorem mkBuckets_closed (signals : List TemporalSignal) :
    ∀ (n : Nat) (t : Int),
      mkBuckets signals t (t + n * bucketDurationMs) =
        (List.range n).map
          (fun i : Nat => mkBucket signals (t + (i : Int) * bucketDurationMs)) := by
  intro n
  induction n with
  | zero =>
    intro t
    rw [mkBuckets_of_ge]
    · simp
    · simp
  | succ k ih =>
    intro t
    have hlt : t < t + ((k : Int) + 1) * bucketDurationMs := by
      simp only [bucketDurationMs]; omega
    have hlt2 : t < t + ((k + 1 : Nat) : Int) * bucketDurationMs := by push_cast; exact hlt
    rw [mkBuckets_of_lt _ _ _ hlt2]
    have harith : t + ((k + 1 : Nat) : Int) * bucketDurationMs =
        (t + bucketDurationMs) + (k : Int) * bucketDurationMs := by push_cast; ring
    rw [harith, ih (t + bucketDurationMs)]
    rw [List.range_succ_eq_map]
    simp only [List.map_cons, List.map_map]
    congr 1
    · simp
    · apply List.map_congr_left
      intro i _
      simp only [Function.comp]
      congr 1
      push_cast
      ring

theorem foldl_weights (l : List TemporalSignal) :
    ∀ c : Nat, l.foldl (fun sum s => sum + IMPACT_WEIGHTS s.impactLevel) c =
      c + (l.map (fun s => IMPACT_WEIGHTS s.impactLevel)).sum := by
  induction l with
  | nil => simp
  | cons s l ih => intro c; simp [ih]; omega

theorem sumWeights_eq (l : List TemporalSignal) :
    sumWeights l = (l.map (fun s => IMPACT_WEIGHTS s.impactLevel)).sum := by
  simpa [sumWeights] using foldl_weights l 0

/-- **C1.** For a positive horizon of `d` days the bucket stage of
`computeOutreachWindows` produces `24·d` consecutive 1-hour buckets
tiling `[now, now + d days)`; each bucket's score is the sum of the
impact weights of exactly the signals overlapping it under the open
test `signalStart < bucketEnd ∧ signalEnd > bucketStart`, and a signal
whose end equals the bucket's start is not among the bucket's signals
(so contributes nothing to its score). -/
theorem mkBuckets_partition_scores (signals : List TemporalSignal)
    (d now : Int) (hd : 0 < d) :
    (mkBuckets signals now (now + d * dayMs)).length = 24 * d.toNat ∧
    (∀ (i : Nat) (hi : i < (mkBuckets signals now (now + d * dayMs)).length),
      ((mkBuckets signals now (now + d * dayMs)).get ⟨i, hi⟩).start =
          now + (i : Int) * bucketDurationMs ∧
      ((mkBuckets signals now (now + d * dayMs)).get ⟨i, hi⟩).stop =
          now + (i : Int) * bucketDurationMs + bucketDurationMs ∧
      ((mkBuckets signals now (now + d * dayMs)).get ⟨i, hi⟩).score =
        ((signals.filter (signalActive (now + (i : Int) * bucketDurationMs)
            (now + (i : Int) * bucketDurationMs + bucketDurationMs))).map
          (fun s => IMPACT_WEIGHTS s.impactLevel)).sum ∧
      (∀ s ∈ signals, s.endTime = now + (i : Int) * bucketDurationMs →
        s ∉ ((mkBuckets signals now (now + d * dayMs)).get ⟨i, hi⟩).signals)) := by
  have hdd : ((d.toNat : Int)) = d := Int.toNat_of_nonneg hd.le
  have hn : now + d * dayMs = now + ((24 * d.toNat : Nat) : Int) * bucketDurationMs := by
    simp only [bucketDurationMs, dayMs]
    push_cast
    rw [hdd]
    ring
  have key : mkBuckets signals now (now + d * dayMs) =
      (List.range (24 * d.toNat)).map
        (fun i : Nat => mkBucket signals (now + (i : Int) * bucketDurationMs)) := by
    rw [hn, mkBuckets_closed]
  constructor
  · rw [key]; simp
  · intro i hi
    have hget : (mkBuckets signals now (now + d * dayMs)).get ⟨i, hi⟩ =
        mkBucket signals (now + (i : Int) * bucketDurationMs) := by
      rw [List.get_of_eq key ⟨i, hi⟩]
      simp [List.get_eq_getElem]
    rw [hget]
    refine ⟨rfl, rfl, ?_, ?_⟩
    · simp [mkBucket, sumWeights_eq]
    · intro s _ hend hmem
      simp only [mkBucket, List.mem_filter] at hmem
      have hact := hmem.2
      simp only [signalActive, Bool.and_eq_true, decide_eq_true_eq] at hact
      omega

/-- Witness for `mkBuckets_partition_scores` at `signals = []`,
`d = 1`, `now = 0`. -/
theorem mkBuckets_partition_scores_witness :
    ((0 : Int) < 1) ∧
      (mkBuckets [] 0 (0 + 1 * dayMs)).length = 24 * (1 : Int).toNat :=
  ⟨by decide, (mkBuckets_partition_scores [] 1 0 (by decide)).1⟩

/-! ## Window-chain (partition) machinery -/

/-- `WChain a ws b`: the windows `ws` tile the half-open span `[a, b)`
contiguously and in time order: the first window starts at `a`, each
window ends where the next starts, every window has positive duration,
and the last window ends at `b` (for `ws = []` this degenerates to
`a = b`). -/
def WChain : Int → List OutreachWindow → Int → Prop
  | a, [], b => a = b
  | a, w :: ws, b => w.startTime = a ∧ w.startTime < w.endTime ∧ WChain w.endTime ws b

theorem wchain_nil_iff (a b : Int) : WChain a [] b ↔ a = b := Iff.rfl

theorem wchain_cons_iff (a b : Int) (w : OutreachWindow) (ws : List OutreachWindow) :
    WChain a (w :: ws) b ↔
      w.startTime = a ∧ w.startTime < w.endTime ∧ WChain w.endTime ws b := Iff.rfl

theorem wchain_append (xs ys : List OutreachWindow) :
    ∀ a c : Int, WChain a (xs ++ ys) c ↔ ∃ b, WChain a xs b ∧ WChain b ys c := by
  induction xs with
  | nil =>
    intro a c
    simp only [List.nil_append, wchain_nil_iff]
    constructor
    · intro h; exact ⟨a, rfl, h⟩
    · rintro ⟨b, hb, h⟩; rw [hb]; exact h
  | cons w xs ih =>
    intro a c
    simp only [List.cons_append, wchain_cons_iff, ih]
    constructor
    · rintro ⟨h1, h2, b, h3, h4⟩; exact ⟨b, ⟨h1, h2, h3⟩, h4⟩
    · rintro ⟨b, ⟨h1, h2, h3⟩, h4⟩; exact ⟨h1, h2, b, h3, h4⟩

theorem wchain_snoc (xs : List OutreachWindow) (w : OutreachWindow) (a c : Int) :
    WChain a (xs ++ [w]) c ↔
      ∃ b, WChain a xs b ∧ w.startTime = b ∧ w.startTime < w.endTime ∧
        w.endTime = c := by
  rw [wchain_append]
  constructor
  · rintro ⟨b, h1, h2, h3, h4⟩
    exact ⟨b, h1, h2, h3, h4⟩
  · rintro ⟨b, h1, h2, h3, h4⟩
    exact ⟨b, h1, h2, h3, h4⟩

theorem materializeWindow_start (idx : Nat) (cw : CurrentWindow) :
    (materializeWindow idx cw).startTime = cw.startBucket.start := rfl

theorem materializeWindow_end (idx : Nat) (cw : CurrentWindow) :
    (materializeWindow idx cw).endTime = cw.endBucket.stop := rfl

/-- The bucket-merge loop turns a chain of windows plus an accumulating
window spanning `[cw.startBucket.start, t)` and a bucket run tiling
`[t, t + n hours)` into a chain reaching `t + n hours`. -/
theorem mergeLoop_chain (signals : List TemporalSignal) :
    ∀ (n : Nat) (t : Int) (acc : List OutreachWindow) (cw : CurrentWindow) (s0 : Int),
      WChain s0 acc cw.startBucket.start →
      cw.startBucket.start < t →
      cw.endBucket.stop = t →
      WChain s0 (mergeLoop acc cw (mkBuckets signals t (t + n * bucketDurationMs)))
        (t + n * bucketDurationMs) := by
  intro n
  induction n with
  | zero =>
    intro t acc cw s0 hacc hlt hstop
    rw [mkBuckets_of_ge _ _ _ (by simp)]
    simp only [mergeLoop]
    rw [wchain_snoc]
    refine ⟨cw.startBucket.start, hacc, rfl, ?_, ?_⟩
    · rw [materializeWindow_start, materializeWindow_end, hstop]; exact hlt
    · rw [materializeWindow_end, hstop]; simp
  | succ k ih =>
    intro t acc cw s0 hacc hlt hstop
    have hbound : t < t + ((k + 1 : Nat) : Int) * bucketDurationMs := by
      simp only [bucketDurationMs]; omega
    rw [mkBuckets_of_lt _ _ _ hbound]
    have harith : t + ((k + 1 : Nat) : Int) * bucketDurationMs =
        (t + bucketDurationMs) + (k : Int) * bucketDurationMs := by push_cast; ring
    simp only [mergeLoop]
    by_cases hty : cw.type = getWindowType (mkBucket signals t).score
    · rw [if_pos hty, harith]
      apply ih (t + bucketDurationMs) acc (extendWindow cw (mkBucket signals t)) s0
      · exact hacc
      · show cw.startBucket.start < t + bucketDurationMs
        simp only [bucketDurationMs] at hlt ⊢; omega
      · rfl
    · rw [if_neg hty, harith]
      apply ih (t + bucketDurationMs) _ (freshWindow _ (mkBucket signals t)) s0
      · show WChain s0 (acc ++ [materializeWindow acc.length cw]) t
        rw [wchain_snoc]
        refine ⟨cw.startBucket.start, hacc, rfl, ?_, ?_⟩
        · rw [materializeWindow_start, materializeWindow_end, hstop]; exact hlt
        · rw [materializeWindow_end, hstop]
      · show t < t + bucketDurationMs
        simp only [bucketDurationMs]; omega
      · rfl

/-- The merged window list tiles the whole (nonempty) bucket horizon. -/
theorem mergeBuckets_chain (signals : List TemporalSignal) (n : Nat) (hn : 0 < n)
    (now : Int) :
    WChain now (mergeBuckets (mkBuckets signals now (now + n * bucketDurationMs)))
      (now + n * bucketDurationMs) := by
  obtain ⟨k, rfl⟩ : ∃ k, n = k + 1 := ⟨n - 1, by omega⟩
  have h0 : now < now + ((k + 1 : Nat) : Int) * bucketDurationMs := by
    simp only [bucketDurationMs]; omega
  rw [mkBuckets_of_lt _ _ _ h0]
  simp only [mergeBuckets]
  have harith : now + ((k + 1 : Nat) : Int) * bucketDurationMs =
      (now + bucketDurationMs) + (k : Int) * bucketDurationMs := by push_cast; ring
  rw [harith]
  apply mergeLoop_chain signals k (now + bucketDurationMs) []
    (freshWindow _ (mkBucket signals now)) now
  · show WChain now [] now
    rfl
  · show now < now + bucketDurationMs
    simp only [bucketDurationMs]; omega
  · rfl

/-! ## Fragmentation-cleanup lemmas -/

/-- The impact-weight record has no entry for any window-type key, so
the escalation comparison of the cleanup loop is `undefined > undefined`
and always false. -/
theorem escalates_false (w prev : OutreachWindow) : escalates w prev = false := by
  have h1 : IMPACT_WEIGHTS_record (windowTypeKey w.windowType) = none := by
    cases w.windowType <;> rfl
  have h2 : IMPACT_WEIGHTS_record (windowTypeKey prev.windowType) = none := by
    cases prev.windowType <;> rfl
  rw [escalates, h1, h2]
  rfl

/-- With the escalation branch dead, absorbing a short window only
extends the previous window's end and unions the driver id sets. -/
theorem mergeIntoPrev_eq (prev w : OutreachWindow) :
    mergeIntoPrev prev w =
      { prev with
        endTime := w.endTime
        driverSignalIds := dedupStrings (prev.driverSignalIds ++ w.driverSignalIds) } := by
  rw [mergeIntoPrev]
  simp only [escalates_false]
  rfl

/-- One cleanup step preserves the chain property. -/
theorem cleanupStep_chain (acc : List OutreachWindow) (w : OutreachWindow)
    (s0 a : Int) (h1 : WChain s0 acc a) (hws : w.startTime = a)
    (hwlt : w.startTime < w.endTime) :
    WChain s0 (cleanupStep acc w) w.endTime := by
  rcases List.eq_nil_or_concat acc with hnil | ⟨init, prev, hconcat⟩
  on_goal 2 => rw [List.concat_eq_append] at hconcat
  · subst hnil
    have hs0 : s0 = a := h1
    have hstep : cleanupStep [] w = [w] := by
      rw [cleanupStep]
      split
      · rfl
      · rfl
    rw [hstep, wchain_cons_iff]
    exact ⟨by rw [hws, hs0], hwlt, rfl⟩
  · subst hconcat
    obtain ⟨p, hinit, hps, hplt, ha⟩ := (wchain_snoc init prev s0 a).mp h1
    rw [cleanupStep]
    split
    · rw [List.getLast?_concat, List.dropLast_concat, wchain_snoc]
      refine ⟨p, hinit, ?_, ?_, ?_⟩
      · rw [mergeIntoPrev_eq]; exact hps
      · rw [mergeIntoPrev_eq]
        show prev.startTime < w.endTime
        omega
      · rw [mergeIntoPrev_eq]
    · rw [wchain_snoc]
      exact ⟨a, h1, hws, hwlt, rfl⟩

/-- The cleanup fold preserves the chain property: its output tiles
`[s0, b)` whenever the accumulated part tiles `[s0, a)` and the
remaining windows tile `[a, b)`. -/
theorem cleanup_chain :
    ∀ (ws acc : List OutreachWindow) (s0 a b : Int),
      WChain s0 acc a → WChain a ws b →
      WChain s0 (ws.foldl cleanupStep acc) b := by
  intro ws
  induction ws with
  | nil =>
    intro acc s0 a b h1 h2
    have hab : a = b := h2
    simpa [← hab] using h1
  | cons w ws ih =>
    intro acc s0 a b h1 h2
    obtain ⟨hws, hwlt, hrest⟩ := (wchain_cons_iff a b w ws).mp h2
    simp only [List.foldl_cons]
    exact ih (cleanupStep acc w) s0 w.endTime b
      (cleanupStep_chain acc w s0 a h1 hws hwlt) hrest

/-- Rewriting `computeOutreachWindows` through the closed bucket form,
so that concrete instances reduce by computation (the bucket loop
itself is defined by well-founded recursion). -/
theorem computeOutreachWindows_eval (signals : List TemporalSignal)
    (d now : Int) (n : Nat)
    (h : now + d * dayMs = now + (n : Int) * bucketDurationMs) :
    computeOutreachWindows signals d now =
      cleanupWindows (mergeBuckets ((List.range n).map
        (fun i : Nat => mkBucket signals (now + (i : Int) * bucketDurationMs)))) := by
  simp only [computeOutreachWindows]
  rw [h, mkBuckets_closed]

/-- Shared arithmetic: a `d`-day horizon is `24·d` hour buckets. -/
theorem horizon_eq (d now : Int) (hd : 0 ≤ d) :
    now + d * dayMs = now + ((24 * d.toNat : Nat) : Int) * bucketDurationMs := by
  have hdd : ((d.toNat : Int)) = d := Int.toNat_of_nonneg hd
  simp only [bucketDurationMs, dayMs]
  push_cast
  rw [hdd]
  ring

/-- **C2 (amended).** For every signal list and positive horizon the
returned window list is a contiguous, non-overlapping, time-ordered
partition of `[now, now + d days)`: the first window starts at the
horizon start, adjacent windows share an endpoint (no gaps, no
overlap), every window has positive duration, and the last window ends
at the horizon end; the list is nonempty.  (The original claim's final
conjunct — that no two adjacent returned windows share a `windowType` —
is false on the code; see the counterexample.) -/
theorem computeOutreachWindows_partition (signals : List TemporalSignal)
    (d now : Int) (hd : 0 < d) :
    WChain now (computeOutreachWindows signals d now) (now + d * dayMs) ∧
      computeOutreachWindows signals d now ≠ [] := by
  have hchain : WChain now (computeOutreachWindows signals d now) (now + d * dayMs) := by
    rw [computeOutreachWindows, cleanupWindows]
    refine cleanup_chain _ [] now now (now + d * dayMs) rfl ?_
    rw [horizon_eq d now hd.le]
    apply mergeBuckets_chain
    omega
  refine ⟨hchain, ?_⟩
  intro hempty
  rw [hempty] at hchain
  have : now = now + d * dayMs := hchain
  simp only [dayMs] at this
  omega

/-- Witness for `computeOutreachWindows_partition` at `signals = []`,
`d = 1`, `now = 0`. -/
theorem computeOutreachWindows_partition_witness :
    ((0 : Int) < 1) ∧ computeOutreachWindows [] 1 0 ≠ [] :=
  ⟨by decide, (computeOutreachWindows_partition [] 1 0 (by decide)).2⟩

/-- A medium-impact signal covering hours `[4, 5)` of the horizon
(start instant 0): millisecond range `[14400000, 18000000)`. -/
def sigHourFour : TemporalSignal :=
  { id := "s1"
    description := "street cleaning"
    startTime := 14400000
    endTime := 18000000
    impactLevel := .medium
    confidenceLevel := .high }

/-- **C2 (counterexample).** With one medium signal in hour `[4,5)` of a
1-day horizon the run-length phase yields safer `[0,4)` / caution
`[4,5)` / safer `[5,24)`; the short caution window is absorbed without
type escalation, leaving two adjacent `safer` windows in the returned
list — refuting the claim's "no two adjacent windows share a type after
fragmentation cleanup". -/
theorem adjacent_same_type_counterexample :
    (computeOutreachWindows [sigHourFour] 1 0).map
        (fun w => (w.windowType, w.startTime, w.endTime)) =
      [(WindowType.safer, 0, 18000000), (WindowType.safer, 18000000, 86400000)] := by
  rw [computeOutreachWindows_eval [sigHourFour] 1 0 24 (by norm_num [dayMs, bucketDurationMs])]
  decide

/-! ## Window impact scores (C7) -/

/-- The score of the hourly bucket starting at `t`. -/
def scoreAt (signals : List TemporalSignal) (t : Int) : Nat :=
  (mkBucket signals t).score

/-- The maximum bucket score over the `k` consecutive hourly buckets
starting at `lo` (0 when `k = 0`). -/
def maxScoreOver (signals : List TemporalSignal) (lo : Int) (k : Nat) : Nat :=
  ((List.range k).map
    (fun i : Nat => scoreAt signals (lo + (i : Int) * bucketDurationMs))).foldl max 0

theorem maxScoreOver_succ (signals : List TemporalSignal) (lo : Int) (k : Nat) :
    maxScoreOver signals lo (k + 1) =
      max (maxScoreOver signals lo k)
        (scoreAt signals (lo + (k : Int) * bucketDurationMs)) := by
  simp [maxScoreOver, List.range_succ]

theorem maxScoreOver_one (signals : List TemporalSignal) (lo : Int) :
    maxScoreOver signals lo 1 = scoreAt signals lo := by
  show max 0 (scoreAt signals (lo + (0 : Int) * bucketDurationMs)) = scoreAt signals lo
  rw [Nat.zero_max]
  norm_num

/-- A window records the maximum bucket score over its own span: it
covers `k ≥ 1` whole hourly buckets and its `impactScore` is the
maximum of their scores. -/
def WinScoreP (signals : List TemporalSignal) (w : OutreachWindow) : Prop :=
  ∃ k : Nat, 0 < k ∧
    w.endTime = w.startTime + (k : Int) * bucketDurationMs ∧
    w.impactScore = maxScoreOver signals w.startTime k

theorem materializeWindow_score (idx : Nat) (cw : CurrentWindow) :
    (materializeWindow idx cw).impactScore = cw.maxScore := rfl

theorem mergeLoop_scores (signals : List TemporalSignal) :
    ∀ (n : Nat) (t : Int) (acc : List OutreachWindow) (cw : CurrentWindow) (ka : Nat),
      (∀ w ∈ acc, WinScoreP signals w) →
      0 < ka →
      cw.endBucket.stop = t →
      t = cw.startBucket.start + (ka : Int) * bucketDurationMs →
      cw.maxScore = maxScoreOver signals cw.startBucket.start ka →
      ∀ w ∈ mergeLoop acc cw (mkBuckets signals t (t + n * bucketDurationMs)),
        WinScoreP signals w := by
  intro n
  induction n with
  | zero =>
    intro t acc cw ka hacc hka hstop ht hmax
    rw [mkBuckets_of_ge _ _ _ (by simp)]
    simp only [mergeLoop]
    intro w hw
    rcases List.mem_append.mp hw with h | h
    · exact hacc w h
    · rcases List.mem_singleton.mp h with rfl
      refine ⟨ka, hka, ?_, ?_⟩
      · rw [materializeWindow_start, materializeWindow_end, hstop, ht]
      · rw [materializeWindow_score, materializeWindow_start, hmax]
  | succ k ih =>
    intro t acc cw ka hacc hka hstop ht hmax
    have hbound : t < t + ((k + 1 : Nat) : Int) * bucketDurationMs := by
      simp only [bucketDurationMs]; omega
    rw [mkBuckets_of_lt _ _ _ hbound]
    have harith : t + ((k + 1 : Nat) : Int) * bucketDurationMs =
        (t + bucketDurationMs) + (k : Int) * bucketDurationMs := by push_cast; ring
    simp only [mergeLoop]
    by_cases hty : cw.type = getWindowType (mkBucket signals t).score
    · rw [if_pos hty, harith]
      apply ih (t + bucketDurationMs) acc (extendWindow cw (mkBucket signals t))
        (ka + 1) hacc (by omega)
      · rfl
      · show t + bucketDurationMs =
          cw.startBucket.start + ((ka + 1 : Nat) : Int) * bucketDurationMs
        push_cast
        rw [ht]; ring
      · show max cw.maxScore (mkBucket signals t).score =
          maxScoreOver signals cw.startBucket.start (ka + 1)
        rw [hmax, maxScoreOver_succ]
        congr 1
        show (mkBucket signals t).score =
          scoreAt signals (cw.startBucket.start + (ka : Int) * bucketDurationMs)
        rw [← ht]
        rfl
    · rw [if_neg hty, harith]
      apply ih (t + bucketDurationMs) _ (freshWindow _ (mkBucket signals t)) 1
      · intro w hw
        rcases List.mem_append.mp hw with h | h
        · exact hacc w h
        · rcases List.mem_singleton.mp h with rfl
          refine ⟨ka, hka, ?_, ?_⟩
          · rw [materializeWindow_start, materializeWindow_end, hstop, ht]
          · rw [materializeWindow_score, materializeWindow_start, hmax]
      · omega
      · rfl
      · show t + bucketDurationMs = (mkBucket signals t).start + ((1 : Nat) : Int) * bucketDurationMs
        push_cast
        show t + bucketDurationMs = t + 1 * bucketDurationMs
        ring
      · show (mkBucket signals t).score = maxScoreOver signals (mkBucket signals t).start 1
        rw [maxScoreOver_one]
        rfl

/-- All run-length-merged windows satisfy `WinScoreP`. -/
theorem mergeBuckets_scores (signals : List TemporalSignal) (n : Nat) (hn : 0 < n)
    (now : Int) :
    ∀ w ∈ mergeBuckets (mkBuckets signals now (now + n * bucketDurationMs)),
      WinScoreP signals w := by
  obtain ⟨k, rfl⟩ : ∃ k, n = k + 1 := ⟨n - 1, by omega⟩
  have h0 : now < now + ((k + 1 : Nat) : Int) * bucketDurationMs := by
    simp only [bucketDurationMs]; omega
  rw [mkBuckets_of_lt _ _ _ h0]
  simp only [mergeBuckets]
  have harith : now + ((k + 1 : Nat) : Int) * bucketDurationMs =
      (now + bucketDurationMs) + (k : Int) * bucketDurationMs := by push_cast; ring
  rw [harith]
  apply mergeLoop_scores signals k (now + bucketDurationMs) []
    (freshWindow _ (mkBucket signals now)) 1
  · intro w hw; cases hw
  · omega
  · rfl
  · show now + bucketDurationMs = (mkBucket signals now).start + ((1 : Nat) : Int) * bucketDurationMs
    push_cast
    show now + bucketDurationMs = now + 1 * bucketDurationMs
    ring
  · show (mkBucket signals now).score = maxScoreOver signals (mkBucket signals now).start 1
    rw [maxScoreOver_one]
    rfl

/-- One cleanup step preserves "each window carries the start, impact
score and an end no earlier than some window satisfying `T`". -/
theorem cleanupStep_transfer (T : OutreachWindow → Prop)
    (acc : List OutreachWindow) (w : OutreachWindow) (s0 a : Int)
    (h1 : WChain s0 acc a) (hws : w.startTime = a) (hwlt : w.startTime < w.endTime)
    (hTw : T w)
    (hacc : ∀ v ∈ acc, ∃ w0, T w0 ∧ v.startTime = w0.startTime ∧
      v.impactScore = w0.impactScore ∧ w0.endTime ≤ v.endTime) :
    ∀ v ∈ cleanupStep acc w, ∃ w0, T w0 ∧ v.startTime = w0.startTime ∧
      v.impactScore = w0.impactScore ∧ w0.endTime ≤ v.endTime := by
  rcases List.eq_nil_or_concat acc with hnil | ⟨init, prev, hconcat⟩
  on_goal 2 => rw [List.concat_eq_append] at hconcat
  · subst hnil
    have hstep : cleanupStep [] w = [w] := by
      rw [cleanupStep]
      split
      · rfl
      · rfl
    rw [hstep]
    intro v hv
    rcases List.mem_singleton.mp hv with rfl
    exact ⟨v, hTw, rfl, rfl, le_rfl⟩
  · subst hconcat
    obtain ⟨p, hinit, hps, hplt, ha⟩ := (wchain_snoc init prev s0 a).mp h1
    rw [cleanupStep]
    split
    · rw [List.getLast?_concat, List.dropLast_concat]
      intro v hv
      rcases List.mem_append.mp hv with h | h
      · exact hacc v (List.mem_append.mpr (Or.inl h))
      · rcases List.mem_singleton.mp h with rfl
        obtain ⟨w0, hT0, hs0', hi0, he0⟩ :=
          hacc prev (List.mem_append.mpr (Or.inr (List.mem_singleton.mpr rfl)))
        refine ⟨w0, hT0, ?_, ?_, ?_⟩
        · rw [mergeIntoPrev_eq]; exact hs0'
        · rw [mergeIntoPrev_eq]; exact hi0
        · rw [mergeIntoPrev_eq]
          show w0.endTime ≤ w.endTime
          omega
    · intro v hv
      rcases List.mem_append.mp hv with h | h
      · exact hacc v h
      · rcases List.mem_singleton.mp h with rfl
        exact ⟨v, hTw, rfl, rfl, le_rfl⟩

/-- The cleanup fold transfers window data: every output window takes
its start and impact score from some input window whose end it can only
have extended. -/
theorem cleanup_transfer (T : OutreachWindow → Prop) :
    ∀ (ws acc : List OutreachWindow) (s0 a b : Int),
      WChain s0 acc a → WChain a ws b →
      (∀ w ∈ ws, T w) →
      (∀ v ∈ acc, ∃ w0, T w0 ∧ v.startTime = w0.startTime ∧
        v.impactScore = w0.impactScore ∧ w0.endTime ≤ v.endTime) →
      ∀ v ∈ ws.foldl cleanupStep acc, ∃ w0, T w0 ∧ v.startTime = w0.startTime ∧
        v.impactScore = w0.impactScore ∧ w0.endTime ≤ v.endTime := by
  intro ws
  induction ws with
  | nil =>
    intro acc s0 a b h1 h2 hT hacc
    simpa using hacc
  | cons w ws ih =>
    intro acc s0 a b h1 h2 hT hacc
    obtain ⟨hws, hwlt, hrest⟩ := (wchain_cons_iff a b w ws).mp h2
    simp only [List.foldl_cons]
    refine ih (cleanupStep acc w) s0 w.endTime b
      (cleanupStep_chain acc w s0 a h1 hws hwlt) hrest
      (fun v hv => hT v (List.mem_cons_of_mem w hv)) ?_
    exact cleanupStep_transfer T acc w s0 a h1 hws hwlt
      (hT w (List.mem_cons_self w ws)) hacc

/-- **C7 (amended).** Every window materialized by the run-length merge
carries as `impactScore` the maximum bucket score over its own span of
hourly buckets; fragmentation cleanup preserves each surviving window's
start and `impactScore` and can only extend its end.  Hence a returned
window's `impactScore` is the maximum bucket score over its
*pre-cleanup* range — the buckets of short windows absorbed into it are
*not* included, contrary to the original claim (see the
counterexample). -/
theorem computeOutreachWindows_impactScore (signals : List TemporalSignal)
    (d now : Int) (hd : 0 < d) :
    (∀ w ∈ mergeBuckets (mkBuckets signals now (now + d * dayMs)),
      WinScoreP signals w) ∧
    (∀ v ∈ computeOutreachWindows signals d now,
      ∃ w0 ∈ mergeBuckets (mkBuckets signals now (now + d * dayMs)),
        v.startTime = w0.startTime ∧ v.impactScore = w0.impactScore ∧
          w0.endTime ≤ v.endTime) := by
  have hrw : now + d * dayMs = now + ((24 * d.toNat : Nat) : Int) * bucketDurationMs :=
    horizon_eq d now hd.le
  have hn : 0 < 24 * d.toNat := by
    have := Int.toNat_of_nonneg hd.le
    omega
  constructor
  · rw [hrw]
    exact mergeBuckets_scores signals _ hn now
  · intro v hv
    have hchain : WChain now (mergeBuckets (mkBuckets signals now (now + d * dayMs)))
        (now + d * dayMs) := by
      rw [hrw]
      exact mergeBuckets_chain signals _ hn now
    have hv2 : v ∈ (mergeBuckets (mkBuckets signals now (now + d * dayMs))).foldl
        cleanupStep [] := by
      simpa [computeOutreachWindows, cleanupWindows] using hv
    have hres := cleanup_transfer
      (fun w0 => w0 ∈ mergeBuckets (mkBuckets signals now (now + d * dayMs)))
      (mergeBuckets (mkBuckets signals now (now + d * dayMs))) [] now now
      (now + d * dayMs) rfl hchain (fun w hw => hw) (fun u hu => by cases hu) v hv2
    obtain ⟨w0, hw0, h1, h2, h3⟩ := hres
    exact ⟨w0, hw0, h1, h2, h3⟩

/-- Witness for `computeOutreachWindows_impactScore` at `signals = []`,
`d = 1`, `now = 0`. -/
theorem computeOutreachWindows_impactScore_witness :
    ((0 : Int) < 1) ∧
      (∀ w ∈ mergeBuckets (mkBuckets [] 0 ((0 : Int) + 1 * dayMs)), WinScoreP [] w) :=
  ⟨by decide, (computeOutreachWindows_impactScore [] 1 0 (by decide)).1⟩

/-- **C7 (counterexample).** With one medium signal in hour `[4,5)` of a
1-day horizon, the first returned window spans `[0h, 5h)` after
absorbing the short caution window `[4h, 5h)`, yet its `impactScore` is
0 while the maximum bucket score over `[0h, 5h)` (five buckets from
instant 0) is 2 — refuting "impactScore equals the maximum bucket score
within the window's final time range". -/
theorem impactScore_counterexample :
    (computeOutreachWindows [sigHourFour] 1 0).map
        (fun w => (w.startTime, w.endTime, w.impactScore)) =
      [(0, 18000000, 0), (18000000, 86400000, 0)] ∧
    maxScoreOver [sigHourFour] 0 5 = 2 := by
  constructor
  · rw [computeOutreachWindows_eval [sigHourFour] 1 0 24
      (by norm_num [dayMs, bucketDurationMs])]
    decide
  · decide

/-! ## Fragmentation-cleanup absorption (C3) -/

/-- **C3.** During fragmentation cleanup, a window shorter than two
hours that has a preceding window is absorbed into it: the preceding
window's end is set to the short window's end and the driver-signal id
sets are unioned with insertion-order dedup; and the preceding window
adopts the short window's type, explanation and suggested approach
exactly when the short window's priority under the impact-weight table
is numerically higher than the preceding window's — the table is keyed
by impact levels (`low`/`medium`/`high`), so no window type has a
numeric priority there, both lookups are `undefined`, and neither the
adoption nor the "numerically higher" condition ever holds. -/
theorem cleanupStep_absorbs (acc : List OutreachWindow) (prev w : OutreachWindow)
    (hlast : acc.getLast? = some prev)
    (hshort : w.endTime - w.startTime < twoHoursMs) :
    cleanupStep acc w =
      acc.dropLast ++
        [{ prev with
            endTime := w.endTime
            driverSignalIds :=
              dedupStrings (prev.driverSignalIds ++ w.driverSignalIds) }] ∧
    ((escalates w prev = true) ↔
      (∃ pw pp : Nat,
        IMPACT_WEIGHTS_record (windowTypeKey w.windowType) = some pw ∧
          IMPACT_WEIGHTS_record (windowTypeKey prev.windowType) = some pp ∧
          pp < pw)) := by
  constructor
  · rw [cleanupStep, if_pos hshort, hlast]
    show acc.dropLast ++ [mergeIntoPrev prev w] = _
    rw [mergeIntoPrev_eq]
  · constructor
    · intro h
      rw [escalates_false] at h
      cases h
    · rintro ⟨pw, pp, h1, h2, h3⟩
      have hw : IMPACT_WEIGHTS_record (windowTypeKey w.windowType) = none := by
        cases hwt : w.windowType <;> rfl
      rw [hw] at h1
      cases h1

/-- A concrete safer window, for witnesses. -/
def windowA : OutreachWindow :=
  { id := "window-1"
    windowType := .safer
    startTime := 0
    endTime := 36000000
    driverSignalIds := ["a"]
    plainLanguageWhy := "why-a"
    confidenceSummary := .low
    suggestedApproach := "approach-a"
    impactScore := 1 }

/-- A concrete one-hour caution window, for witnesses. -/
def windowB : OutreachWindow :=
  { id := "window-2"
    windowType := .caution
    startTime := 36000000
    endTime := 39600000
    driverSignalIds := ["b", "a"]
    plainLanguageWhy := "why-b"
    confidenceSummary := .medium
    suggestedApproach := "approach-b"
    impactScore := 2 }

/-- Witness for `cleanupStep_absorbs`: the one-hour `windowB` is
absorbed into `windowA` without adopting its type. -/
theorem cleanupStep_absorbs_witness :
    ([windowA].getLast? = some windowA) ∧
      (windowB.endTime - windowB.startTime < twoHoursMs) ∧
      cleanupStep [windowA] windowB =
        [windowA].dropLast ++
          [{ windowA with
              endTime := windowB.endTime
              driverSignalIds :=
                dedupStrings (windowA.driverSignalIds ++ windowB.driverSignalIds) }] :=
  ⟨rfl, by decide, (cleanupStep_absorbs [windowA] windowA windowB rfl (by decide)).1⟩

/-! ## The first window under cleanup (C10) -/

/-- `y` is `x` with (only) its end instant and driver id set possibly
rewritten — what absorption of later short windows can do to a window
already in the output. -/
def HeadExt (x y : OutreachWindow) : Prop :=
  ∃ e ids, y = { x with endTime := e, driverSignalIds := ids }

theorem headExt_refl (x : OutreachWindow) : HeadExt x x :=
  ⟨x.endTime, x.driverSignalIds, rfl⟩

theorem headExt_trans {x y z : OutreachWindow} (h1 : HeadExt x y)
    (h2 : HeadExt y z) : HeadExt x z := by
  obtain ⟨e1, ids1, rfl⟩ := h1
  obtain ⟨e2, ids2, rfl⟩ := h2
  exact ⟨e2, ids2, rfl⟩

/-- One cleanup step never absorbs the first window of the accumulator:
the head survives, at most with an extended end and enlarged driver
set. -/
theorem cleanupStep_head (acc : List OutreachWindow) (w x : OutreachWindow)
    (hhead : acc.head? = some x) :
    ∃ y, (cleanupStep acc w).head? = some y ∧ HeadExt x y := by
  rcases List.eq_nil_or_concat acc with hnil | ⟨init, prev, hconcat⟩
  on_goal 2 => rw [List.concat_eq_append] at hconcat
  · subst hnil; cases hhead
  · subst hconcat
    rw [cleanupStep]
    split
    · rw [List.getLast?_concat, List.dropLast_concat]
      rcases init with _ | ⟨z, zs⟩
      · have hx : x = prev := by
          simp only [List.nil_append, List.head?_cons] at hhead
          exact (Option.some_inj.mp hhead).symm
        subst hx
        refine ⟨mergeIntoPrev x w, rfl, ?_⟩
        rw [mergeIntoPrev_eq]
        exact ⟨w.endTime, dedupStrings (x.driverSignalIds ++ w.driverSignalIds), rfl⟩
      · have hx : x = z := by
          simp only [List.cons_append, List.head?_cons] at hhead
          exact (Option.some_inj.mp hhead).symm
        subst hx
        exact ⟨x, rfl, headExt_refl x⟩
    · rcases init with _ | ⟨z, zs⟩
      · have hx : x = prev := by
          simp only [List.nil_append, List.head?_cons] at hhead
          exact (Option.some_inj.mp hhead).symm
        subst hx
        exact ⟨x, rfl, headExt_refl x⟩
      · have hx : x = z := by
          simp only [List.cons_append, List.head?_cons] at hhead
          exact (Option.some_inj.mp hhead).symm
        subst hx
        exact ⟨x, rfl, headExt_refl x⟩

/-- The cleanup fold never absorbs the first window of its
accumulator. -/
theorem cleanup_head :
    ∀ (ws acc : List OutreachWindow) (x : OutreachWindow),
      acc.head? = some x →
      ∃ y, (ws.foldl cleanupStep acc).head? = some y ∧ HeadExt x y := by
  intro ws
  induction ws with
  | nil =>
    intro acc x hx
    exact ⟨x, hx, headExt_refl x⟩
  | cons w ws ih =>
    intro acc x hx
    obtain ⟨y, hy, hxy⟩ := cleanupStep_head acc w x hx
    obtain ⟨z, hz, hyz⟩ := ih (cleanupStep acc w) y hy
    exact ⟨z, hz, headExt_trans hxy hyz⟩

/-- A medium-impact signal covering hour `[0, 1)` of the horizon:
millisecond range `[0, 3600000)`. -/
def sigHourZero : TemporalSignal :=
  { id := "s0"
    description := "morning closure"
    startTime := 0
    endTime := 3600000
    impactLevel := .medium
    confidenceLevel := .high }

/-- A medium-impact signal covering hour `[1, 2)` of the horizon:
millisecond range `[3600000, 7200000)`. -/
def sigHourOne : TemporalSignal :=
  { id := "s2"
    description := "midday closure"
    startTime := 3600000
    endTime := 7200000
    impactLevel := .medium
    confidenceLevel := .high }

/-- **C10 (amended).** Fragmentation cleanup never absorbs the first
materialized window into anything (there is no preceding window): it
stays at the head of the returned list with its id, type, start,
explanation, approach, confidence and score intact — though a
*following* short window may still be absorbed into it, extending its
end and driver set, so it need not be returned entirely unchanged (see
the counterexample).  Moreover the returned list may indeed begin with
a window of duration under 2 hours: with one medium signal in hour
`[0,1)` the first returned window is the one-hour caution window
`[0h, 1h)`. -/
theorem cleanup_keeps_first_window (signals : List TemporalSignal)
    (d now : Int) (w1 : OutreachWindow) (rest : List OutreachWindow)
    (hpre : mergeBuckets (mkBuckets signals now (now + d * dayMs)) = w1 :: rest) :
    (∃ y, (computeOutreachWindows signals d now).head? = some y ∧
      y.id = w1.id ∧ y.windowType = w1.windowType ∧ y.startTime = w1.startTime ∧
      y.plainLanguageWhy = w1.plainLanguageWhy ∧
      y.suggestedApproach = w1.suggestedApproach ∧
      y.confidenceSummary = w1.confidenceSummary ∧
      y.impactScore = w1.impactScore) ∧
    ((computeOutreachWindows [sigHourZero] 1 0).map
        (fun v => (v.windowType, v.startTime, v.endTime))).head? =
      some (WindowType.caution, 0, 3600000) := by
  constructor
  · have hfold : computeOutreachWindows signals d now =
        (mergeBuckets (mkBuckets signals now (now + d * dayMs))).foldl cleanupStep [] := by
      simp [computeOutreachWindows, cleanupWindows]
    have hstep : cleanupStep ([] : List OutreachWindow) w1 = [w1] := by
      rw [cleanupStep]
      split
      · rfl
      · rfl
    rw [hfold, hpre]
    simp only [List.foldl_cons, hstep]
    obtain ⟨y, hy, hext⟩ := cleanup_head rest [w1] w1 rfl
    refine ⟨y, hy, ?_⟩
    obtain ⟨e, ids, rfl⟩ := hext
    exact ⟨rfl, rfl, rfl, rfl, rfl, rfl, rfl⟩
  · rw [computeOutreachWindows_eval [sigHourZero] 1 0 24
      (by norm_num [dayMs, bucketDurationMs])]
    decide

/-- The first window the run-length merge materializes for
`[sigHourZero]` over one day from instant 0. -/
def firstWindowZero : OutreachWindow :=
  { id := "window-1"
    windowType := .caution
    startTime := 0
    endTime := 3600000
    driverSignalIds := ["s0"]
    plainLanguageWhy := generateWindowExplanation .caution [sigHourZero]
    confidenceSummary := .high
    suggestedApproach := generateSuggestedApproach .caution
    impactScore := 2 }

/-- The second window the run-length merge materializes for
`[sigHourZero]` over one day from instant 0. -/
def secondWindowZero : OutreachWindow :=
  { id := "window-2"
    windowType := .safer
    startTime := 3600000
    endTime := 86400000
    driverSignalIds := []
    plainLanguageWhy := neutralExplanation
    confidenceSummary := .low
    suggestedApproach := generateSuggestedApproach .safer
    impactScore := 0 }

/-- Witness for `cleanup_keeps_first_window` at `signals = [sigHourZero]`,
`d = 1`, `now = 0`: the one-hour caution head window survives cleanup. -/
theorem cleanup_keeps_first_window_witness :
    (mergeBuckets (mkBuckets [sigHourZero] 0 ((0 : Int) + 1 * dayMs)) =
        firstWindowZero :: [secondWindowZero]) ∧
      (∃ y, (computeOutreachWindows [sigHourZero] 1 0).head? = some y ∧
        y.id = firstWindowZero.id ∧ y.windowType = firstWindowZero.windowType ∧
        y.startTime = firstWindowZero.startTime ∧
        y.plainLanguageWhy = firstWindowZero.plainLanguageWhy ∧
        y.suggestedApproach = firstWindowZero.suggestedApproach ∧
        y.confidenceSummary = firstWindowZero.confidenceSummary ∧
        y.impactScore = firstWindowZero.impactScore) := by
  have hpre : mergeBuckets (mkBuckets [sigHourZero] 0 ((0 : Int) + 1 * dayMs)) =
      firstWindowZero :: [secondWindowZero] := by
    rw [show (0 : Int) + 1 * dayMs = (0 : Int) + ((24 : Nat) : Int) * bucketDurationMs from
      by norm_num [dayMs, bucketDurationMs], mkBuckets_closed]
    rfl
  exact ⟨hpre,
    (cleanup_keeps_first_window [sigHourZero] 1 0 firstWindowZero [secondWindowZero] hpre).1⟩

/-- **C10 (counterexample).** With one medium signal in hour `[1,2)` the
first materialized window is the one-hour safer window `[0h, 1h)` —
shorter than 2 hours — yet cleanup does not leave it unchanged: the
following short caution window is absorbed into it, and it is returned
as `[0h, 2h)`.  This refutes "fragmentation cleanup leaves it in the
output unchanged". -/
theorem first_short_window_modified_counterexample :
    ((mergeBuckets (mkBuckets [sigHourOne] 0 ((0 : Int) + 1 * dayMs))).map
        (fun w => (w.windowType, w.startTime, w.endTime))).head? =
      some (WindowType.safer, 0, 3600000) ∧
    ((computeOutreachWindows [sigHourOne] 1 0).map
        (fun w => (w.windowType, w.startTime, w.endTime))).head? =
      some (WindowType.safer, 0, 7200000) := by
  constructor
  · rw [show (0 : Int) + 1 * dayMs = (0 : Int) + ((24 : Nat) : Int) * bucketDurationMs from
      by norm_num [dayMs, bucketDurationMs], mkBuckets_closed]
    decide
  · rw [computeOutreachWindows_eval [sigHourOne] 1 0 24
      (by norm_num [dayMs, bucketDurationMs])]
    decide

/-! ## The empty-signal horizon (C8) -/

theorem mkBucket_nil (t : Int) :
    mkBucket [] t =
      { start := t, stop := t + bucketDurationMs, score := 0, signals := [] } := rfl

theorem cleanupStep_nil (w : OutreachWindow) : cleanupStep [] w = [w] := by
  rw [cleanupStep]
  split
  · rfl
  · rfl

/-- Extending by an empty-scored, empty-signal bucket only moves the
end bucket. -/
theorem extendWindow_nil (cw : CurrentWindow) (t : Int) :
    extendWindow cw (mkBucket [] t) = { cw with endBucket := mkBucket [] t } := by
  simp [extendWindow, mkBucket_nil]

/-- Over an all-empty bucket run the merge loop never closes the
accumulating safer window; it only drags the end bucket along. -/
theorem mergeLoop_nil_signals :
    ∀ (n : Nat) (t : Int) (cw : CurrentWindow) (acc : List OutreachWindow),
      cw.type = WindowType.safer →
      mergeLoop acc cw (mkBuckets [] t (t + n * bucketDurationMs)) =
        acc ++ [materializeWindow acc.length
          (if n = 0 then cw
           else { cw with
                  endBucket := mkBucket [] (t + ((n : Int) - 1) * bucketDurationMs) })] := by
  intro n
  induction n with
  | zero =>
    intro t cw acc hty
    rw [mkBuckets_of_ge _ _ _ (by simp)]
    simp [mergeLoop]
  | succ k ih =>
    intro t cw acc hty
    have hbound : t < t + ((k + 1 : Nat) : Int) * bucketDurationMs := by
      simp only [bucketDurationMs]; omega
    rw [mkBuckets_of_lt _ _ _ hbound]
    simp only [mergeLoop]
    have htype : getWindowType (mkBucket [] t).score = WindowType.safer := rfl
    rw [if_pos (by rw [hty, htype])]
    have harith : t + ((k + 1 : Nat) : Int) * bucketDurationMs =
        (t + bucketDurationMs) + (k : Int) * bucketDurationMs := by push_cast; ring
    rw [harith, ih (t + bucketDurationMs) (extendWindow cw (mkBucket [] t)) acc
      (by rw [extendWindow_nil]; exact hty)]
    rw [extendWindow_nil]
    rcases Nat.eq_zero_or_pos k with hk | hk
    · subst hk
      simp
    · rw [if_neg (by omega), if_neg (by omega)]
      congr 2
      push_cast
      ring

/-- **C8.** On an empty signal list with a 14-day horizon the function
returns exactly one window: a safer window spanning the whole horizon,
with the fixed neutral "no significant signals" explanation, an empty
driver-signal id list, confidence summary `low`, suggested approach
keyed by `safer`, id `window-1` and impact score 0. -/
theorem computeOutreachWindows_empty (now : Int) :
    computeOutreachWindows [] 14 now =
      [{ id := "window-1"
         windowType := .safer
         startTime := now
         endTime := now + 14 * dayMs
         driverSignalIds := []
         plainLanguageWhy := neutralExplanation
         confidenceSummary := .low
         suggestedApproach := generateSuggestedApproach .safer
         impactScore := 0 }] := by
  have h336 : now + 14 * dayMs = now + ((336 : Nat) : Int) * bucketDurationMs := by
    norm_num [dayMs, bucketDurationMs]
  simp only [computeOutreachWindows]
  rw [h336]
  have h0 : now < now + ((336 : Nat) : Int) * bucketDurationMs := by
    simp only [bucketDurationMs]; omega
  rw [mkBuckets_of_lt _ _ _ h0]
  simp only [mergeBuckets]
  have harith : now + ((336 : Nat) : Int) * bucketDurationMs =
      (now + bucketDurationMs) + ((335 : Nat) : Int) * bucketDurationMs := by
    push_cast; ring
  rw [harith, mergeLoop_nil_signals 335 (now + bucketDurationMs)
    (freshWindow (getWindowType (mkBucket [] now).score) (mkBucket [] now)) [] rfl]
  rw [if_neg (by omega)]
  simp only [List.nil_append, cleanupWindows, List.foldl_cons, List.foldl_nil,
    cleanupStep_nil]
  congr 1
  show materializeWindow 0
      { freshWindow (getWindowType (mkBucket [] now).score) (mkBucket [] now) with
        endBucket :=
          mkBucket [] ((now + bucketDurationMs) +
            ((335 : Int) - 1) * bucketDurationMs) } = _
  simp only [materializeWindow, freshWindow, mkBucket_nil]
  congr 1
  simp only [bucketDurationMs, dayMs]
  omega

/-- Witness for `computeOutreachWindows_empty` at `now = 0`. -/
theorem computeOutreachWindows_empty_witness :
    computeOutreachWindows [] 14 0 =
      [{ id := "window-1"
         windowType := .safer
         startTime := 0
         endTime := (0 : Int) + 14 * dayMs
         driverSignalIds := []
         plainLanguageWhy := neutralExplanation
         confidenceSummary := .low
         suggestedApproach := generateSuggestedApproach .safer
         impactScore := 0 }] :=
  computeOutreachWindows_empty 0

/-! ## Degenerate horizons (C9) and determinism (C6) -/

/-- **C9.** A non-positive horizon day count makes the bucket loop run
zero iterations, so the function returns the empty window list instead
of raising. -/
theorem computeOutreachWindows_nonpositive (signals : List TemporalSignal)
    (d now : Int) (hd : d ≤ 0) :
    computeOutreachWindows signals d now = [] := by
  have hle : now + d * dayMs ≤ now := by
    simp only [dayMs]; omega
  simp only [computeOutreachWindows]
  rw [mkBuckets_of_ge _ _ _ (by omega)]
  rfl

/-- Witness for `computeOutreachWindows_nonpositive` at `d = 0`. -/
theorem computeOutreachWindows_nonpositive_witness :
    ((0 : Int) ≤ 0) ∧ computeOutreachWindows [] 0 5 = [] :=
  ⟨by decide, computeOutreachWindows_nonpositive [] 0 5 (by decide)⟩

/-- **C6.** `computeOutreachWindows` evaluates the wall clock exactly
once per call (`const now = new Date()`), so with the wall clock
modelled as the stream of instants successive `new Date()` calls would
return, any two clocks agreeing on that single initial read yield
identical window lists: the result is a pure, deterministic function of
(signals, horizon, now) with no further wall-clock dependence. -/
theorem computeOutreachWindows_deterministic (c1 c2 : Nat → Int)
    (signals : List TemporalSignal) (d : Int) (h : c1 0 = c2 0) :
    computeOutreachWindowsClocked c1 signals d =
      computeOutreachWindowsClocked c2 signals d := by
  rw [computeOutreachWindowsClocked, computeOutreachWindowsClocked, h]

/-- Witness for `computeOutreachWindows_deterministic`: two clocks that
agree only at read 0. -/
theorem computeOutreachWindows_deterministic_witness :
    ((fun _ : Nat => (0 : Int)) 0 = (fun n : Nat => (n : Int)) 0) ∧
      computeOutreachWindowsClocked (fun _ : Nat => (0 : Int)) [] 1 =
        computeOutreachWindowsClocked (fun n : Nat => (n : Int)) [] 1 :=
  ⟨rfl, computeOutreachWindows_deterministic _ _ [] 1 rfl⟩

/-! ## Scenario transformer (C5) -/

/-- **C5 (amended).** `applyScenarioMode` returns a fresh list (the
embedding is pure; the source builds new objects and leaves its input
untouched) in which the window at each position is derived from the
input window at the same position: a safer window keeps its start and
its new end is the double-arithmetic value
`trunc(fl(start + fl(duration × factor)))` with factor the double
nearest 0.7 for `olympics` and nearest 0.8 for `majorEvent` — NOT the
exact real product `start + factor × duration` of the original claim,
which the program misses by one millisecond whenever the rounded
double product lands just below an integer (see the counterexample);
a caution window is reclassified to `highDisruption` with rewritten
speculative-prefixed texts; a `highDisruption` window keeps its range
and gets a speculative-prefixed explanation; every output id carries
the `scenario-` prefix; and the claim's concrete case is exact: a
10-hour duration compresses to exactly 7 hours under `olympics`
(8 hours under `majorEvent`), the double products being exactly
25200000 and 28800000. -/
theorem applyScenarioMode_spec (windows : List OutreachWindow)
    (st : ScenarioType) (i : Nat) (hi : i < windows.length) :
    (applyScenarioMode windows st).length = windows.length ∧
    (∃ v, (applyScenarioMode windows st)[i]? = some v ∧
      v.id = "scenario-" ++ (windows.get ⟨i, hi⟩).id ∧
      ((windows.get ⟨i, hi⟩).windowType = WindowType.safer →
        v.windowType = WindowType.safer ∧
        v.startTime = (windows.get ⟨i, hi⟩).startTime ∧
        v.endTime = compressEnd st (windows.get ⟨i, hi⟩).startTime
          (windows.get ⟨i, hi⟩).endTime ∧
        v.plainLanguageWhy = "SPECULATIVE: " ++
          (windows.get ⟨i, hi⟩).plainLanguageWhy ++
          " During major events, available windows compress due to increased institutional activity." ∧
        v.suggestedApproach = "SPECULATIVE: " ++
          (windows.get ⟨i, hi⟩).suggestedApproach ++
          " Consider pre-event outreach to maximize available time.") ∧
      ((windows.get ⟨i, hi⟩).windowType = WindowType.caution →
        v.windowType = WindowType.highDisruption ∧
        v.startTime = (windows.get ⟨i, hi⟩).startTime ∧
        v.endTime = (windows.get ⟨i, hi⟩).endTime ∧
        v.plainLanguageWhy = "SPECULATIVE: " ++
          (windows.get ⟨i, hi⟩).plainLanguageWhy ++
          " Major events typically increase impact of existing signals." ∧
        v.suggestedApproach =
          "SPECULATIVE: Focus resources on pre-event and post-event windows rather than during.") ∧
      ((windows.get ⟨i, hi⟩).windowType = WindowType.highDisruption →
        v.windowType = WindowType.highDisruption ∧
        v.startTime = (windows.get ⟨i, hi⟩).startTime ∧
        v.endTime = (windows.get ⟨i, hi⟩).endTime ∧
        v.plainLanguageWhy = "SPECULATIVE: " ++
          (windows.get ⟨i, hi⟩).plainLanguageWhy ∧
        v.suggestedApproach = (windows.get ⟨i, hi⟩).suggestedApproach)) ∧
    compressEnd ScenarioType.olympics 0 36000000 = 25200000 ∧
    compressEnd ScenarioType.majorEvent 0 36000000 = 28800000 := by
  refine ⟨by simp [applyScenarioMode], ?_, by decide, by decide⟩
  refine ⟨applyScenarioWindow st (windows.get ⟨i, hi⟩), ?_, ?_, ?_, ?_, ?_⟩
  · simp [applyScenarioMode, List.getElem?_eq_getElem, hi, List.get_eq_getElem]
  · rcases hty : (windows.get ⟨i, hi⟩).windowType with _ | _ | _ <;>
      · simp only [List.get_eq_getElem] at hty
        simp [applyScenarioWindow, hty]
  · intro hty
    simp only [List.get_eq_getElem] at hty
    simp [applyScenarioWindow, hty]
  · intro hty
    simp only [List.get_eq_getElem] at hty
    simp [applyScenarioWindow, hty]
  · intro hty
    simp only [List.get_eq_getElem] at hty
    simp [applyScenarioWindow, hty]

/-- Witness for `applyScenarioMode_spec`: the 10-hour safer `windowA`
under the olympics scenario. -/
theorem applyScenarioMode_spec_witness :
    (0 < [windowA].length) ∧
      (applyScenarioMode [windowA] ScenarioType.olympics).length =
        [windowA].length :=
  ⟨by decide, (applyScenarioMode_spec [windowA] ScenarioType.olympics 0 (by decide)).1⟩

/-- A 90-millisecond safer window starting at instant 0, for the
scenario floating-point counterexample. -/
def windowNinety : OutreachWindow :=
  { id := "window-1"
    windowType := .safer
    startTime := 0
    endTime := 90
    driverSignalIds := []
    plainLanguageWhy := "why-90"
    confidenceSummary := .low
    suggestedApproach := "approach-90"
    impactScore := 0 }

/-- **C5 (counterexample).** The exact real product 0.7 × 90 is the
integer 63 (`7 * 90 = 63 * 10`), so the claim's formula
`end = start + factor × duration` demands end instant 63 for a safer
window `[0, 90)` under `olympics`.  The program computes
`90 * 0.7 = 62.99999999999999` (the double nearest 0.7 lies below
7/10) and `Date` truncation yields 62: the returned end instant is 62,
not 63. -/
theorem scenario_factor_counterexample :
    (applyScenarioMode [windowNinety] ScenarioType.olympics).map
        (fun v => (v.startTime, v.endTime)) = [(0, 62)] ∧
    7 * 90 = 63 * 10 ∧
    (62 : Int) ≠ 0 + 63 := by
  refine ⟨by decide, by decide, by decide⟩

/-! ## Overlap-detector lemmas (C4) -/

/-- The qualifying pairs of the pair scan, in loop order: each position
pair `i < j` of the list whose ranges pass the overlap test. -/
def qpairs : List TemporalSignal → List (TemporalSignal × TemporalSignal)
  | [] => []
  | a :: rest =>
    ((rest.filter (overlapTest a)).map (fun b => (a, b))) ++ qpairs rest

/-- The dedup key of a pair. -/
def keyOfPair (p : TemporalSignal × TemporalSignal) : String :=
  pairKey p.1.id p.2.id

/-- When the keys of `a`'s qualifying partners are distinct and none is
already processed, the inner loop emits exactly one overlap per
qualifying partner, in order, and records their keys. -/
theorem innerLoop_eq (a : TemporalSignal) :
    ∀ (bs : List TemporalSignal) (processed : List String),
      ((bs.filter (overlapTest a)).map (fun b => pairKey a.id b.id)).Nodup →
      (∀ b ∈ bs, overlapTest a b = true → pairKey a.id b.id ∉ processed) →
      innerLoop a bs processed =
        ((bs.filter (overlapTest a)).map (mkOverlap a),
          processed ++ (bs.filter (overlapTest a)).map (fun b => pairKey a.id b.id)) := by
  intro bs
  induction bs with
  | nil =>
    intro processed _ _
    simp [innerLoop]
  | cons b bs ih =>
    intro processed hnodup hfresh
    by_cases hov : overlapTest a b
    · have hfilter : (b :: bs).filter (overlapTest a) =
          b :: bs.filter (overlapTest a) := by
        rw [List.filter_cons_of_pos hov]
      rw [hfilter] at hnodup
      simp only [List.map_cons, List.nodup_cons] at hnodup
      obtain ⟨hknotin, hnodup2⟩ := hnodup
      have hkey : pairKey a.id b.id ∉ processed :=
        hfresh b (List.mem_cons_self b bs) hov
      rw [innerLoop, if_pos hov, if_neg hkey]
      rw [ih (processed ++ [pairKey a.id b.id]) hnodup2 ?fresh2]
      case fresh2 =>
        intro c hc hovc
        rw [List.mem_append]
        push_neg
        constructor
        · exact hfresh c (List.mem_cons_of_mem b hc) hovc
        · intro hmem
          rcases List.mem_singleton.mp hmem with heq
          apply hknotin
          rw [← heq]
          exact List.mem_map_of_mem _ (List.mem_filter.mpr ⟨hc, hovc⟩)
      rw [hfilter]
      simp
    · have hfilter : (b :: bs).filter (overlapTest a) =
          bs.filter (overlapTest a) := by
        rw [List.filter_cons_of_neg (by simpa using hov)]
      rw [innerLoop, if_neg hov]
      rw [ih processed (by rw [← hfilter]; exact hnodup)
        (fun c hc hovc => hfresh c (List.mem_cons_of_mem b hc) hovc)]
      rw [hfilter]

/-- When all qualifying pair keys are distinct and unprocessed, the
pair scan emits exactly the qualifying pairs' overlaps, in loop
order. -/
theorem outerLoop_eq :
    ∀ (l : List TemporalSignal) (processed : List String),
      ((qpairs l).map keyOfPair).Nodup →
      (∀ p ∈ qpairs l, keyOfPair p ∉ processed) →
      outerLoop l processed = (qpairs l).map (fun p => mkOverlap p.1 p.2) := by
  intro l
  induction l with
  | nil =>
    intro processed _ _
    simp [outerLoop, qpairs]
  | cons a rest ih =>
    intro processed hnodup hfresh
    have hqp : qpairs (a :: rest) =
        ((rest.filter (overlapTest a)).map (fun b => (a, b))) ++ qpairs rest := rfl
    have hkeys1 : ((rest.filter (overlapTest a)).map (fun b => (a, b))).map keyOfPair =
        (rest.filter (overlapTest a)).map (fun b => pairKey a.id b.id) := by
      rw [List.map_map]
      rfl
    rw [hqp, List.map_append, hkeys1, List.nodup_append] at hnodup
    obtain ⟨hn1, hn2, hdisj⟩ := hnodup
    rw [outerLoop]
    have hinner := innerLoop_eq a rest processed hn1 ?freshInner
    case freshInner =>
      intro b hb hovb
      have : keyOfPair (a, b) ∉ processed := by
        apply hfresh
        rw [hqp, List.mem_append]
        exact Or.inl (List.mem_map_of_mem _ (List.mem_filter.mpr ⟨hb, hovb⟩))
      exact this
    rw [hinner]
    rw [ih (processed ++ (rest.filter (overlapTest a)).map (fun b => pairKey a.id b.id))
      hn2 ?freshOuter]
    case freshOuter =>
      intro p hp
      rw [List.mem_append]
      push_neg
      constructor
      · exact hfresh p (by rw [hqp, List.mem_append]; exact Or.inr hp)
      · intro hmem
        exact hdisj hmem (List.mem_map_of_mem keyOfPair hp)
    rw [hqp, List.map_append, List.map_map]
    rfl

/-- Membership in the qualifying-pair list is exactly "ordered pair of
(positionally) distinct list members passing the overlap test". -/
theorem mem_qpairs_iff :
    ∀ (l : List TemporalSignal) (a b : TemporalSignal),
      (a, b) ∈ qpairs l ↔ ([a, b].Sublist l ∧ overlapTest a b = true) := by
  intro l
  induction l with
  | nil =>
    intro a b
    simp [qpairs]
  | cons x rest ih =>
    intro a b
    simp only [qpairs, List.mem_append, List.mem_map, List.mem_filter, ih]
    constructor
    · rintro (⟨c, ⟨hcmem, hcov⟩, heq⟩ | ⟨hsub, hov⟩)
      · obtain ⟨hax, hbc⟩ := Prod.mk.injEq .. ▸ heq
        subst hax
        subst hbc
        exact ⟨List.Sublist.cons₂ _ (List.singleton_sublist.mpr hcmem), hcov⟩
      · exact ⟨hsub.cons x, hov⟩
    · rintro ⟨hsub, hov⟩
      cases hsub with
      | cons _ h => exact Or.inr ⟨h, hov⟩
      | cons₂ _ h =>
        exact Or.inl ⟨b, ⟨List.singleton_sublist.mp h, hov⟩, rfl⟩

theorem insertByStart_perm (o : SignalOverlap) :
    ∀ l : List SignalOverlap, (insertByStart o l).Perm (o :: l) := by
  intro l
  induction l with
  | nil => exact List.Perm.refl _
  | cons x xs ih =>
    rw [insertByStart]
    split
    · exact (ih.cons x).trans (List.Perm.swap o x xs)
    · exact List.Perm.refl _

theorem sortByStart_perm_aux :
    ∀ (l acc : List SignalOverlap),
      (l.foldl (fun acc o => insertByStart o acc) acc).Perm (acc ++ l) := by
  intro l
  induction l with
  | nil => intro acc; simp
  | cons o l ih =>
    intro acc
    simp only [List.foldl_cons]
    exact ((ih _).trans
      ((insertByStart_perm o acc).append_right l)).trans List.perm_middle.symm

theorem sortByStart_perm (l : List SignalOverlap) : (sortByStart l).Perm l := by
  simpa [sortByStart] using sortByStart_perm_aux l []

theorem insertByStart_sorted (o : SignalOverlap) :
    ∀ l : List SignalOverlap,
      List.Pairwise (fun x y => x.startTime ≤ y.startTime) l →
      List.Pairwise (fun x y => x.startTime ≤ y.startTime) (insertByStart o l) := by
  intro l
  induction l with
  | nil =>
    intro _
    simp [insertByStart]
  | cons x xs ih =>
    intro hp
    obtain ⟨hx, hxs⟩ := List.pairwise_cons.mp hp
    rw [insertByStart]
    split
    · rename_i hle
      refine List.pairwise_cons.mpr ⟨?_, ih hxs⟩
      intro y hy
      rcases List.mem_cons.mp ((insertByStart_perm o xs).mem_iff.mp hy) with hyo | hyxs
      · rw [hyo]; exact hle
      · exact hx y hyxs
    · rename_i hgt
      push_neg at hgt
      refine List.pairwise_cons.mpr ⟨?_, hp⟩
      intro y hy
      rcases List.mem_cons.mp hy with hyx | hyxs
      · rw [hyx]; exact le_of_lt hgt
      · exact le_of_lt (lt_of_lt_of_le hgt (hx y hyxs))

theorem sortByStart_sorted_aux :
    ∀ (l acc : List SignalOverlap),
      List.Pairwise (fun x y => x.startTime ≤ y.startTime) acc →
      List.Pairwise (fun x y => x.startTime ≤ y.startTime)
        (l.foldl (fun acc o => insertByStart o acc) acc) := by
  intro l
  induction l with
  | nil => intro acc h; simpa using h
  | cons o l ih =>
    intro acc h
    simp only [List.foldl_cons]
    exact ih _ (insertByStart_sorted o acc h)

theorem sortByStart_sorted (l : List SignalOverlap) :
    List.Pairwise (fun x y => x.startTime ≤ y.startTime) (sortByStart l) :=
  sortByStart_sorted_aux l [] (List.Pairwise.nil)

/-- Recover the dedup key from an emitted overlap record. -/
def keyFromOverlap (o : SignalOverlap) : String :=
  match o.signalIds with
  | [x, y] => pairKey x y
  | _ => ""

theorem isImpactful_ne_low (s : TemporalSignal) (h : isImpactful s = true) :
    s.impactLevel ≠ ImpactLevel.low := by
  intro hl
  simp [isImpactful, hl] at h

/-- **C4 (amended).** Provided the order-independent dedup keys
(`[a.id, b.id].sort().join("-")`) of the qualifying pairs are pairwise
distinct — the original claim fails without this side condition because
the dash-join can collide across distinct id pairs, see the
counterexample — `findSignalOverlaps` emits exactly one overlap per
unordered pair of distinct medium/high-impact signals whose ranges
overlap under `aStart < bEnd ∧ aEnd > bStart`: the output is a
permutation of one record per qualifying pair, each record carries the
intersection range (max of starts, min of ends), the sum-of-weights
combined impact, and the two ids of non-low-impact signals; the output
has no duplicates and is sorted ascending by intersection start. -/
theorem findSignalOverlaps_spec (signals : List TemporalSignal)
    (hkeys : ((qpairs (signals.filter isImpactful)).map keyOfPair).Nodup) :
    (findSignalOverlaps signals).Perm
        ((qpairs (signals.filter isImpactful)).map (fun p => mkOverlap p.1 p.2)) ∧
    (∀ a b : TemporalSignal,
      (a, b) ∈ qpairs (signals.filter isImpactful) ↔
        ([a, b].Sublist (signals.filter isImpactful) ∧ overlapTest a b = true)) ∧
    (∀ o ∈ findSignalOverlaps signals, ∃ a b : TemporalSignal,
      (a, b) ∈ qpairs (signals.filter isImpactful) ∧ o = mkOverlap a b ∧
      o.startTime = max a.startTime b.startTime ∧
      o.endTime = min a.endTime b.endTime ∧
      o.combinedImpact = combinedImpactOf a b ∧
      o.signalIds = [a.id, b.id] ∧
      a.impactLevel ≠ ImpactLevel.low ∧ b.impactLevel ≠ ImpactLevel.low) ∧
    (findSignalOverlaps signals).Nodup ∧
    List.Pairwise (fun x y => x.startTime ≤ y.startTime)
      (findSignalOverlaps signals) := by
  have hout : outerLoop (signals.filter isImpactful) [] =
      (qpairs (signals.filter isImpactful)).map (fun p => mkOverlap p.1 p.2) :=
    outerLoop_eq _ [] hkeys (fun p _ => List.not_mem_nil _)
  have hfind : findSignalOverlaps signals =
      sortByStart (outerLoop (signals.filter isImpactful) []) := rfl
  have hperm : (findSignalOverlaps signals).Perm
      ((qpairs (signals.filter isImpactful)).map (fun p => mkOverlap p.1 p.2)) := by
    rw [hfind, hout]
    exact sortByStart_perm _
  have hmapnodup :
      ((qpairs (signals.filter isImpactful)).map (fun p => mkOverlap p.1 p.2)).Nodup := by
    have h2 : ((qpairs (signals.filter isImpactful)).map
        (fun p => mkOverlap p.1 p.2)).map keyFromOverlap =
          (qpairs (signals.filter isImpactful)).map keyOfPair := by
      rw [List.map_map]
      rfl
    have h3 := hkeys
    rw [← h2] at h3
    exact h3.of_map
  refine ⟨hperm, fun a b => mem_qpairs_iff _ a b, ?_, hperm.nodup_iff.mpr hmapnodup, ?_⟩
  · intro o ho
    have homem : o ∈ (qpairs (signals.filter isImpactful)).map
        (fun p => mkOverlap p.1 p.2) := hperm.mem_iff.mp ho
    obtain ⟨p, hpmem, rfl⟩ := List.mem_map.mp homem
    obtain ⟨a, b⟩ := p
    have hsub := ((mem_qpairs_iff _ a b).mp hpmem).1
    have ha : a ∈ signals.filter isImpactful := hsub.subset (by simp)
    have hb : b ∈ signals.filter isImpactful := hsub.subset (by simp)
    exact ⟨a, b, hpmem, rfl, rfl, rfl, rfl, rfl,
      isImpactful_ne_low a (List.mem_filter.mp ha).2,
      isImpactful_ne_low b (List.mem_filter.mp hb).2⟩
  · rw [hfind]
    exact sortByStart_sorted _

/-- The spec's concrete pair: A, medium impact, hours `[24, 28)`. -/
def sigMediumA : TemporalSignal :=
  { id := "A"
    description := "A signal"
    startTime := 86400000
    endTime := 100800000
    impactLevel := .medium
    confidenceLevel := .high }

/-- The spec's concrete pair: B, high impact, hours `[26, 30)`. -/
def sigHighB : TemporalSignal :=
  { id := "B"
    description := "B signal"
    startTime := 93600000
    endTime := 108000000
    impactLevel := .high
    confidenceLevel := .high }

/-- Witness for `findSignalOverlaps_spec`: the spec's medium/high pair
with distinct dash-free ids. -/
theorem findSignalOverlaps_spec_witness :
    (((qpairs ([sigMediumA, sigHighB].filter isImpactful)).map keyOfPair).Nodup) ∧
      (findSignalOverlaps [sigMediumA, sigHighB]).Perm
        ((qpairs ([sigMediumA, sigHighB].filter isImpactful)).map
          (fun p => mkOverlap p.1 p.2)) :=
  ⟨by decide, (findSignalOverlaps_spec [sigMediumA, sigHighB] (by decide)).1⟩

/-- A medium-impact signal with a chosen id, all sharing the range
`[0, 10)` ms, for exercising dedup-key collisions. -/
def mkDashSig (i : String) : TemporalSignal :=
  { id := i
    description := "d"
    startTime := 0
    endTime := 10
    impactLevel := .medium
    confidenceLevel := .high }

/-- **C4 (counterexample).** Four pairwise-distinct medium signals with
ids `"a-b"`, `"c"`, `"a"`, `"b-c"` and identical ranges: all 6
unordered pairs qualify, but the pairs `("a-b", "c")` and
`("a", "b-c")` share the dedup key `"a-b-c"`, so only 5 overlaps are
emitted and no overlap for the qualifying pair `("a", "b-c")` appears —
refuting "exactly one SignalOverlap per unordered pair". -/
theorem pair_key_collision_counterexample :
    (findSignalOverlaps
        [mkDashSig "a-b", mkDashSig "c", mkDashSig "a", mkDashSig "b-c"]).length = 5 ∧
    (qpairs ([mkDashSig "a-b", mkDashSig "c", mkDashSig "a",
        mkDashSig "b-c"].filter isImpactful)).length = 6 ∧
    ((mkDashSig "a", mkDashSig "b-c") ∈
      qpairs ([mkDashSig "a-b", mkDashSig "c", mkDashSig "a",
        mkDashSig "b-c"].filter isImpactful)) ∧
    (∀ o ∈ findSignalOverlaps
        [mkDashSig "a-b", mkDashSig "c", mkDashSig "a", mkDashSig "b-c"],
      o.signalIds ≠ ["a", "b-c"]) := by
  decide

end Temporal
